import Mathlib

/-!
Shallow embedding of `src/util/transshipment2_utils.py`.

The repository consists of one function with nontrivial logic,
`solve_transshipment_problem`, which builds a PuLP linear program from
dictionaries (`nodes`, `supply`, `demand`, `cost`), hands it to an external
LP solver, and returns a results table together with the objective value,
plus two plotting helpers that only read the solution.

Modelling choices:
* Python dictionaries are association lists; a lookup of a missing key is a
  `KeyError`, modelled with `Except PyErr`.
* LP numbers (PuLP `Continuous` variables and float data) are modelled as `ℚ`.
* The external LP solver (`problem.solve()`) is an oracle
  `Solver : LP → SolverResult`; the code never inspects the returned status,
  and its `SolverResult.status` field is correspondingly ignored.
* The linear program is kept syntactic: `buildProblem` produces the list of
  decision variables, the objective terms, and the constraint rows exactly as
  the Python loops add them (supply rows, then demand rows, then
  transshipment rows).
* The two plotting helpers are modelled as pure functions computing the data
  handed to the charting library; their results are discarded, as the Python
  functions only render and return `None`.
* `problem.variables()` is modelled as the list of flow variables (every
  variable occurs in the objective, one per `cost` key); PuLP's sorting of
  that list by variable name is not modelled, the entries are kept in `cost`
  insertion order.
-/

namespace Transshipment

/-- A node name (Python strings such as `"F1"`, `"XD1"`, `"DC3"`). -/
abbrev Node := String

/-- An arc, i.e. a key `(i, j)` of the `cost` dictionary. -/
abbrev Arc := Node × Node

/-- The `nodes` dictionary: lists of node names by role. -/
structure Nodes where
  sources : List Node
  transshipments : List Node
  destinations : List Node

/-- A Python `KeyError`: either a missing arc key (in `cost`/`flow`) or a
missing node key (in `supply`/`demand`). -/
inductive PyErr where
  | keyArc (p : Arc)
  | keyNode (s : Node)
deriving DecidableEq

/-- First-match association-list lookup, the semantics of a Python dict
built without duplicate keys. -/
def dfind? {α β : Type} [DecidableEq α] : List (α × β) → α → Option β
  | [], _ => none
  | (k', v) :: d, k => if k' = k then some v else dfind? d k

/-- The key list of a dictionary. -/
def keys {α β : Type} (d : List (α × β)) : List α := d.map Prod.fst

/-- Python subscript `d[k]`: the value, or a `KeyError`. -/
def pyGet {α β : Type} [DecidableEq α] (mkErr : α → PyErr) (d : List (α × β))
    (k : α) : Except PyErr β :=
  match dfind? d k with
  | some v => .ok v
  | none => .error (mkErr k)

/-- Subscripting the `flow` dictionary of decision variables: the variable is
represented by its own arc key, so `flow[i, j]` returns `(i, j)` when the key
exists and raises `KeyError` otherwise. -/
def flowVar (fk : List Arc) (p : Arc) : Except PyErr Arc :=
  if p ∈ fk then .ok p else .error (.keyArc p)

/-- Effectful map over a list, stopping at the first error — the evaluation
order of a Python comprehension that may raise. -/
def exMap {α β : Type} (f : α → Except PyErr β) : List α → Except PyErr (List β)
  | [] => .ok []
  | a :: l =>
    match f a with
    | .error e => .error e
    | .ok b =>
      match exMap f l with
      | .error e => .error e
      | .ok bs => .ok (b :: bs)

/-- Comparison operator of a PuLP constraint row. -/
inductive Cmp where
  | le
  | ge
  | eq
deriving DecidableEq

/-- One PuLP constraint row: linear terms `coefficient * variable`, a
comparison, and a right-hand side constant. -/
structure Constraint where
  terms : List (ℚ × Arc)
  cmp : Cmp
  rhs : ℚ
deriving DecidableEq

/-- The linear program assembled by the Python function: decision variables
(one per `cost` key, lower bound `0`), objective terms, constraint rows. -/
structure LP where
  vars : List Arc
  objective : List (ℚ × Arc)
  constraints : List Constraint
deriving DecidableEq

/-- `lpSum` of flow-variable lookups with a fixed coefficient: the terms
`coeff * flow[h x]` for `x` in `l`, or the first `KeyError`. -/
def flowTerms (fk : List Arc) (q : ℚ) (h : Node → Arc) (l : List Node) :
    Except PyErr (List (ℚ × Arc)) :=
  exMap (fun x => Except.map (fun v => (q, v)) (flowVar fk (h x))) l

/-- `lpSum(flow[i, j] for j in transshipments) <= supply[i]`. -/
def buildSupplyCon (transshipments : List Node) (supply : List (Node × ℚ))
    (fk : List Arc) (i : Node) : Except PyErr Constraint :=
  match flowTerms fk 1 (fun j => (i, j)) transshipments with
  | .error e => .error e
  | .ok ts =>
    match pyGet PyErr.keyNode supply i with
    | .error e => .error e
    | .ok s => .ok ⟨ts, Cmp.le, s⟩

/-- `lpSum(flow[i, j] for i in transshipments) >= demand[j]`. -/
def buildDemandCon (transshipments : List Node) (demand : List (Node × ℚ))
    (fk : List Arc) (j : Node) : Except PyErr Constraint :=
  match flowTerms fk 1 (fun i => (i, j)) transshipments with
  | .error e => .error e
  | .ok ts =>
    match pyGet PyErr.keyNode demand j with
    | .error e => .error e
    | .ok dv => .ok ⟨ts, Cmp.ge, dv⟩

/-- `lpSum(flow[i, k] for i in sources) == lpSum(flow[k, j] for j in
destinations)`, moved to the form `lhs - rhs == 0`. -/
def buildTransCon (sources destinations : List Node) (fk : List Arc)
    (k : Node) : Except PyErr Constraint :=
  match flowTerms fk 1 (fun i => (i, k)) sources with
  | .error e => .error e
  | .ok tin =>
    match flowTerms fk (-1) (fun j => (k, j)) destinations with
    | .error e => .error e
    | .ok tout => .ok ⟨tin ++ tout, Cmp.eq, 0⟩

/-- The model-building prefix of `solve_transshipment_problem`: decision
variables from the `cost` keys, the objective, then the supply, demand and
transshipment constraint loops in program order.  Any missing dictionary key
raises the corresponding `KeyError`. -/
def buildProblem (nodes : Nodes) (supply demand : List (Node × ℚ))
    (cost : List (Arc × ℚ)) : Except PyErr LP :=
  match exMap (buildSupplyCon nodes.transshipments supply (keys cost)) nodes.sources with
  | .error e => .error e
  | .ok sc =>
    match exMap (buildDemandCon nodes.transshipments demand (keys cost)) nodes.destinations with
    | .error e => .error e
    | .ok dc =>
      match exMap (buildTransCon nodes.sources nodes.destinations (keys cost)) nodes.transshipments with
      | .error e => .error e
      | .ok tc =>
        .ok ⟨keys cost, cost.map (fun pc => (pc.2, pc.1)), sc ++ dc ++ tc⟩

/-- Value of a list of linear terms under an assignment. -/
def evalTerms (g : Arc → ℚ) (terms : List (ℚ × Arc)) : ℚ :=
  (terms.map (fun t => t.1 * g t.2)).sum

/-- Satisfaction of one constraint row. -/
def satC (g : Arc → ℚ) (c : Constraint) : Prop :=
  match c.cmp with
  | .le => evalTerms g c.terms ≤ c.rhs
  | .ge => c.rhs ≤ evalTerms g c.terms
  | .eq => evalTerms g c.terms = c.rhs

instance satC_dec (g : Arc → ℚ) (c : Constraint) : Decidable (satC g c) := by
  rcases c with ⟨ts, cmp, r⟩
  cases cmp with
  | le => exact inferInstanceAs (Decidable (evalTerms g ts ≤ r))
  | ge => exact inferInstanceAs (Decidable (r ≤ evalTerms g ts))
  | eq => exact inferInstanceAs (Decidable (evalTerms g ts = r))

/-- Feasibility for the assembled LP: the lower bound `0` of every decision
variable, and every constraint row. -/
def Feasible (lp : LP) (g : Arc → ℚ) : Prop :=
  (∀ v ∈ lp.vars, 0 ≤ g v) ∧ ∀ c ∈ lp.constraints, satC g c

instance (lp : LP) (g : Arc → ℚ) : Decidable (Feasible lp g) := by
  unfold Feasible; infer_instance

/-- Objective value of the assembled LP under an assignment — what
`pulp.value(problem.objective)` computes from the solver's variable values. -/
def objectiveVal (lp : LP) (g : Arc → ℚ) : ℚ :=
  evalTerms g lp.objective

/-- An optimal solution of the LP. -/
def Optimal (lp : LP) (g : Arc → ℚ) : Prop :=
  Feasible lp g ∧ ∀ g', Feasible lp g' → objectiveVal lp g ≤ objectiveVal lp g'

/-- What the external LP solver writes back into the problem: a status code
and a value for every variable. -/
structure SolverResult where
  status : Int
  assignment : Arc → ℚ

/-- The external solver, `problem.solve()`, as an oracle. -/
def Solver : Type := LP → SolverResult

/-- PuLP's `LpVariable` name `f"flow_{i}_{j}"`. -/
def varName (p : Arc) : String := "flow_" ++ p.1 ++ "_" ++ p.2

/-- Data of the network diagram drawn by `plot_transshipment_network`: the
node list, the weighted edges (weight = cost, capacity = flow value), and the
red edge labels (the flow values). -/
structure NetworkPlot where
  nodesList : List Node
  edges : List (Arc × ℚ × ℚ)
  edgeLabels : List (Arc × ℚ)

/-- `plot_transshipment_network`, reduced to the chart data it computes; the
actual rendering (and the hard-coded layout positions) happens inside the
charting libraries. -/
def plot_transshipment_network (nodes : Nodes) (supply demand : List (Node × ℚ))
    (cost : List (Arc × ℚ)) (g : Arc → ℚ) : NetworkPlot :=
  ⟨nodes.sources ++ nodes.transshipments ++ nodes.destinations,
   cost.map (fun pc => (pc.1, pc.2, g pc.1)),
   cost.map (fun pc => (pc.1, g pc.1))⟩

/-- `plot_stacked_bar_chart`, reduced to the `flow_data` rows
`(From, To, Flow)` it builds from `flow.items()`. -/
def plot_stacked_bar_chart (g : Arc → ℚ) (fk : List Arc) (nodes : Nodes) :
    List (Node × Node × ℚ) :=
  fk.map (fun p => (p.1, p.2, g p))

/-- `solve_transshipment_problem`: build the LP (any missing dictionary key
raises `KeyError` here), call the solver, tabulate `(name, value)` rows,
evaluate the objective, optionally compute the two plots (whose data is
discarded — they only render), and return the pair.  The solver's status is
never inspected. -/
def solve_transshipment_problem (solver : Solver) (nodes : Nodes)
    (supply demand : List (Node × ℚ)) (cost : List (Arc × ℚ))
    (plot_network plot_bar_chart : Bool) :
    Except PyErr (List (String × ℚ) × ℚ) :=
  match buildProblem nodes supply demand cost with
  | .error e => .error e
  | .ok problem =>
    let r := solver problem
    let results := problem.vars.map (fun v => (varName v, r.assignment v))
    let total_cost := objectiveVal problem r.assignment
    let _net := if plot_network then
      some (plot_transshipment_network nodes supply demand cost r.assignment)
      else none
    let _bar := if plot_bar_chart then
      some (plot_stacked_bar_chart r.assignment problem.vars nodes)
      else none
    .ok (results, total_cost)

/-! ## The explicit shape of the assembled LP, and the key requirements -/

/-- The supply row `Supply_{i}` in closed form. -/
def mkSupplyCon (transshipments : List Node) (supply : List (Node × ℚ))
    (i : Node) : Constraint :=
  ⟨transshipments.map (fun j => ((1 : ℚ), (i, j))), Cmp.le,
   (dfind? supply i).getD 0⟩

/-- The demand row `Demand_{j}` in closed form. -/
def mkDemandCon (transshipments : List Node) (demand : List (Node × ℚ))
    (j : Node) : Constraint :=
  ⟨transshipments.map (fun i => ((1 : ℚ), (i, j))), Cmp.ge,
   (dfind? demand j).getD 0⟩

/-- The conservation row `Transshipment_{k}` in closed form. -/
def mkTransCon (sources destinations : List Node) (k : Node) : Constraint :=
  ⟨sources.map (fun i => ((1 : ℚ), (i, k))) ++
     destinations.map (fun j => ((-1 : ℚ), (k, j))), Cmp.eq, 0⟩

/-- The LP that `buildProblem` produces when every dictionary key it touches
is present. -/
def explicitLP (nodes : Nodes) (supply demand : List (Node × ℚ))
    (cost : List (Arc × ℚ)) : LP :=
  ⟨keys cost,
   cost.map (fun pc => (pc.2, pc.1)),
   nodes.sources.map (mkSupplyCon nodes.transshipments supply) ++
     nodes.destinations.map (mkDemandCon nodes.transshipments demand) ++
     nodes.transshipments.map (mkTransCon nodes.sources nodes.destinations)⟩

/-- The dictionary entries `solve_transshipment_problem` dereferences while
building constraints: a cost key for every source–transshipment pair and
every transshipment–destination pair, a supply entry for every source, and a
demand entry for every destination. -/
def RequiredKeys (nodes : Nodes) (supply demand : List (Node × ℚ))
    (cost : List (Arc × ℚ)) : Prop :=
  (∀ i ∈ nodes.sources, ∀ j ∈ nodes.transshipments, (i, j) ∈ keys cost) ∧
  (∀ i ∈ nodes.sources, i ∈ keys supply) ∧
  (∀ k ∈ nodes.transshipments, ∀ j ∈ nodes.destinations, (k, j) ∈ keys cost) ∧
  (∀ j ∈ nodes.destinations, j ∈ keys demand)

instance (nodes : Nodes) (supply demand : List (Node × ℚ))
    (cost : List (Arc × ℚ)) : Decidable (RequiredKeys nodes supply demand cost) := by
  unfold RequiredKeys; infer_instance

/-! ## The mathematical transshipment problem, in the spec's words -/

/-- Total flow leaving `i` along the arcs `(i, j)` for `j` in `js`. -/
def flowOut (g : Arc → ℚ) (i : Node) (js : List Node) : ℚ :=
  (js.map (fun j => g (i, j))).sum

/-- Total flow entering `j` along the arcs `(i, j)` for `i` in `is`. -/
def flowIn (g : Arc → ℚ) (is : List Node) (j : Node) : ℚ :=
  (is.map (fun i => g (i, j))).sum

/-- A nonnegative flow assignment that satisfies the supply limits, the
demand requirements, and flow conservation at every transshipment node —
the feasible set described by the specification. -/
def specFeasible (nodes : Nodes) (supply demand : List (Node × ℚ))
    (cost : List (Arc × ℚ)) (g : Arc → ℚ) : Prop :=
  (∀ p ∈ keys cost, 0 ≤ g p) ∧
  (∀ i ∈ nodes.sources, flowOut g i nodes.transshipments ≤ (dfind? supply i).getD 0) ∧
  (∀ j ∈ nodes.destinations, (dfind? demand j).getD 0 ≤ flowIn g nodes.transshipments j) ∧
  (∀ k ∈ nodes.transshipments, flowIn g nodes.sources k = flowOut g k nodes.destinations)

instance (nodes : Nodes) (supply demand : List (Node × ℚ))
    (cost : List (Arc × ℚ)) (g : Arc → ℚ) :
    Decidable (specFeasible nodes supply demand cost g) := by
  unfold specFeasible; infer_instance

/-- The cost of an assignment, in the spec's words: the sum over all `(i, j)`
in `cost` of `cost[i, j] * flow[i, j]`. -/
def specObjective (cost : List (Arc × ℚ)) (g : Arc → ℚ) : ℚ :=
  (cost.map (fun pc => pc.2 * g pc.1)).sum

/-! ## Lookup and `exMap` lemmas -/

theorem pyGet_ok_iff {α β : Type} [DecidableEq α] {mkErr : α → PyErr}
    {d : List (α × β)} {k : α} {v : β} :
    pyGet mkErr d k = .ok v ↔ dfind? d k = some v := by
  unfold pyGet
  cases h : dfind? d k <;> simp

theorem mem_keys_iff_dfind? {α β : Type} [DecidableEq α] {d : List (α × β)}
    {k : α} : k ∈ keys d ↔ ∃ v, dfind? d k = some v := by
  induction d with
  | nil => simp [keys, dfind?]
  | cons a d ih =>
    rcases a with ⟨k', v'⟩
    by_cases h : k' = k
    · subst h; simp [keys, dfind?]
    · have h' : ¬ k = k' := fun hh => h hh.symm
      simp [keys, dfind?, h, h'] at ih ⊢
      exact ih

theorem flowVar_ok_iff {fk : List Arc} {p v : Arc} :
    flowVar fk p = .ok v ↔ p ∈ fk ∧ v = p := by
  unfold flowVar
  by_cases h : p ∈ fk <;> simp [h, eq_comm]

theorem exMap_ok_of_forall {α β : Type} {f : α → Except PyErr β} {g : α → β} :
    ∀ {l : List α}, (∀ a ∈ l, f a = .ok (g a)) → exMap f l = .ok (l.map g)
  | [], _ => rfl
  | a :: l, h => by
    have ha := h a (List.mem_cons_self a l)
    have ih := exMap_ok_of_forall (fun x hx => h x (List.mem_cons_of_mem a hx))
    simp [exMap, ha, ih]

theorem exMap_ok_elim {α β : Type} {f : α → Except PyErr β} {g : α → β}
    (hdet : ∀ a b, f a = .ok b → b = g a) :
    ∀ {l : List α} {bs : List β}, exMap f l = .ok bs →
      bs = l.map g ∧ ∀ a ∈ l, f a = .ok (g a) := by
  intro l
  induction l with
  | nil => intro bs h; simp [exMap] at h; simp [h.symm]
  | cons a l ih =>
    intro bs h
    unfold exMap at h
    cases ha : f a with
    | error e => simp [ha] at h
    | ok b =>
      rw [ha] at h
      cases hl : exMap f l with
      | error e => simp [hl] at h
      | ok bs' =>
        rw [hl] at h
        simp at h
        obtain ⟨hmap, hall⟩ := ih hl
        have hb : b = g a := hdet a b ha
        subst hb hmap
        simp [h.symm, hall]
        constructor
        · exact ha
        · intro x hx; exact hall x hx

/-! ## Characterising the builder -/

theorem flowTerms_ok_of {fk : List Arc} {q : ℚ} {h : Node → Arc}
    {l : List Node} (hmem : ∀ x ∈ l, h x ∈ fk) :
    flowTerms fk q h l = .ok (l.map (fun x => (q, h x))) := by
  apply exMap_ok_of_forall
  intro x hx
  have : flowVar fk (h x) = .ok (h x) := flowVar_ok_iff.2 ⟨hmem x hx, rfl⟩
  simp [this, Except.map]

theorem flowTerms_det {fk : List Arc} {q : ℚ} {h : Node → Arc} {x : Node}
    {b : ℚ × Arc} :
    Except.map (fun v => (q, v)) (flowVar fk (h x)) = .ok b → b = (q, h x) := by
  intro hb
  cases hfv : flowVar fk (h x) with
  | error e => rw [hfv] at hb; simp [Except.map] at hb
  | ok v =>
    rw [hfv] at hb
    simp [Except.map] at hb
    rw [(flowVar_ok_iff.1 hfv).2] at hb
    exact hb.symm

theorem flowTerms_ok_elim {fk : List Arc} {q : ℚ} {h : Node → Arc}
    {l : List Node} {ts : List (ℚ × Arc)} (hok : flowTerms fk q h l = .ok ts) :
    ts = l.map (fun x => (q, h x)) ∧ ∀ x ∈ l, h x ∈ fk := by
  obtain ⟨hmap, hall⟩ := exMap_ok_elim (fun x b hb => flowTerms_det hb) hok
  refine ⟨hmap, fun x hx => ?_⟩
  have := hall x hx
  cases hfv : flowVar fk (h x) with
  | error e => rw [hfv] at this; simp [Except.map] at this
  | ok v => exact (flowVar_ok_iff.1 hfv).1

theorem buildSupplyCon_ok_of {ts : List Node} {supply : List (Node × ℚ)}
    {fk : List Arc} {i : Node} (hflow : ∀ j ∈ ts, (i, j) ∈ fk)
    (hsup : i ∈ keys supply) :
    buildSupplyCon ts supply fk i = .ok (mkSupplyCon ts supply i) := by
  obtain ⟨v, hv⟩ := mem_keys_iff_dfind?.1 hsup
  unfold buildSupplyCon
  rw [flowTerms_ok_of hflow, pyGet_ok_iff.2 hv]
  simp [mkSupplyCon, hv]

theorem buildSupplyCon_ok_elim {ts : List Node} {supply : List (Node × ℚ)}
    {fk : List Arc} {i : Node} {con : Constraint}
    (hok : buildSupplyCon ts supply fk i = .ok con) :
    (∀ j ∈ ts, (i, j) ∈ fk) ∧ i ∈ keys supply ∧
      con = mkSupplyCon ts supply i := by
  unfold buildSupplyCon at hok
  cases hft : flowTerms fk 1 (fun j => (i, j)) ts with
  | error e => rw [hft] at hok; simp at hok
  | ok tv =>
    rw [hft] at hok
    cases hs : pyGet PyErr.keyNode supply i with
    | error e => rw [hs] at hok; simp at hok
    | ok sv =>
      rw [hs] at hok
      simp at hok
      obtain ⟨hmap, hmem⟩ := flowTerms_ok_elim hft
      have hfind := pyGet_ok_iff.1 hs
      refine ⟨hmem, mem_keys_iff_dfind?.2 ⟨sv, hfind⟩, ?_⟩
      rw [hok.symm, hmap, mkSupplyCon, hfind]
      simp

theorem buildDemandCon_ok_of {ts : List Node} {demand : List (Node × ℚ)}
    {fk : List Arc} {j : Node} (hflow : ∀ i ∈ ts, (i, j) ∈ fk)
    (hdem : j ∈ keys demand) :
    buildDemandCon ts demand fk j = .ok (mkDemandCon ts demand j) := by
  obtain ⟨v, hv⟩ := mem_keys_iff_dfind?.1 hdem
  unfold buildDemandCon
  rw [flowTerms_ok_of hflow, pyGet_ok_iff.2 hv]
  simp [mkDemandCon, hv]

theorem buildDemandCon_ok_elim {ts : List Node} {demand : List (Node × ℚ)}
    {fk : List Arc} {j : Node} {con : Constraint}
    (hok : buildDemandCon ts demand fk j = .ok con) :
    (∀ i ∈ ts, (i, j) ∈ fk) ∧ j ∈ keys demand ∧
      con = mkDemandCon ts demand j := by
  unfold buildDemandCon at hok
  cases hft : flowTerms fk 1 (fun i => (i, j)) ts with
  | error e => rw [hft] at hok; simp at hok
  | ok tv =>
    rw [hft] at hok
    cases hs : pyGet PyErr.keyNode demand j with
    | error e => rw [hs] at hok; simp at hok
    | ok dv =>
      rw [hs] at hok
      simp at hok
      obtain ⟨hmap, hmem⟩ := flowTerms_ok_elim hft
      have hfind := pyGet_ok_iff.1 hs
      refine ⟨hmem, mem_keys_iff_dfind?.2 ⟨dv, hfind⟩, ?_⟩
      rw [hok.symm, hmap, mkDemandCon, hfind]
      simp

theorem buildTransCon_ok_of {ss ds : List Node} {fk : List Arc} {k : Node}
    (hin : ∀ i ∈ ss, (i, k) ∈ fk) (hout : ∀ j ∈ ds, (k, j) ∈ fk) :
    buildTransCon ss ds fk k = .ok (mkTransCon ss ds k) := by
  unfold buildTransCon
  rw [flowTerms_ok_of hin, flowTerms_ok_of hout]
  simp [mkTransCon]

theorem buildTransCon_ok_elim {ss ds : List Node} {fk : List Arc} {k : Node}
    {con : Constraint} (hok : buildTransCon ss ds fk k = .ok con) :
    (∀ i ∈ ss, (i, k) ∈ fk) ∧ (∀ j ∈ ds, (k, j) ∈ fk) ∧
      con = mkTransCon ss ds k := by
  unfold buildTransCon at hok
  cases hft : flowTerms fk 1 (fun i => (i, k)) ss with
  | error e => rw [hft] at hok; simp at hok
  | ok tin =>
    rw [hft] at hok
    cases hft' : flowTerms fk (-1) (fun j => (k, j)) ds with
    | error e => rw [hft'] at hok; simp at hok
    | ok tout =>
      rw [hft'] at hok
      simp at hok
      obtain ⟨hmap, hmem⟩ := flowTerms_ok_elim hft
      obtain ⟨hmap', hmem'⟩ := flowTerms_ok_elim hft'
      refine ⟨hmem, hmem', ?_⟩
      rw [hok.symm, hmap, hmap', mkTransCon]

theorem buildProblem_ok_of {nodes : Nodes} {supply demand : List (Node × ℚ)}
    {cost : List (Arc × ℚ)} (hreq : RequiredKeys nodes supply demand cost) :
    buildProblem nodes supply demand cost =
      .ok (explicitLP nodes supply demand cost) := by
  obtain ⟨hst, hs, htd, hd⟩ := hreq
  have hsc : exMap (buildSupplyCon nodes.transshipments supply (keys cost))
      nodes.sources =
      .ok (nodes.sources.map (mkSupplyCon nodes.transshipments supply)) :=
    exMap_ok_of_forall (fun i hi =>
      buildSupplyCon_ok_of (hst i hi) (hs i hi))
  have hdc : exMap (buildDemandCon nodes.transshipments demand (keys cost))
      nodes.destinations =
      .ok (nodes.destinations.map (mkDemandCon nodes.transshipments demand)) :=
    exMap_ok_of_forall (fun j hj =>
      buildDemandCon_ok_of (fun i hi => htd i hi j hj) (hd j hj))
  have htc : exMap (buildTransCon nodes.sources nodes.destinations (keys cost))
      nodes.transshipments =
      .ok (nodes.transshipments.map (mkTransCon nodes.sources nodes.destinations)) :=
    exMap_ok_of_forall (fun k hk =>
      buildTransCon_ok_of (fun i hi => hst i hi k hk) (fun j hj => htd k hk j hj))
  unfold buildProblem
  rw [hsc, hdc, htc]
  rfl

theorem buildProblem_ok_elim {nodes : Nodes} {supply demand : List (Node × ℚ)}
    {cost : List (Arc × ℚ)} {lp : LP}
    (hok : buildProblem nodes supply demand cost = .ok lp) :
    RequiredKeys nodes supply demand cost ∧
      lp = explicitLP nodes supply demand cost := by
  unfold buildProblem at hok
  cases hsc : exMap (buildSupplyCon nodes.transshipments supply (keys cost))
      nodes.sources with
  | error e => rw [hsc] at hok; simp at hok
  | ok sc =>
    rw [hsc] at hok
    cases hdc : exMap (buildDemandCon nodes.transshipments demand (keys cost))
        nodes.destinations with
    | error e => rw [hdc] at hok; simp at hok
    | ok dc =>
      rw [hdc] at hok
      cases htc : exMap (buildTransCon nodes.sources nodes.destinations (keys cost))
          nodes.transshipments with
      | error e => rw [htc] at hok; simp at hok
      | ok tc =>
        rw [htc] at hok
        simp at hok
        obtain ⟨hscm, hsca⟩ := exMap_ok_elim
          (fun i con h => (buildSupplyCon_ok_elim h).2.2) hsc
        obtain ⟨hdcm, hdca⟩ := exMap_ok_elim
          (fun j con h => (buildDemandCon_ok_elim h).2.2) hdc
        obtain ⟨htcm, htca⟩ := exMap_ok_elim
          (fun k con h => (buildTransCon_ok_elim h).2.2) htc
        constructor
        · refine ⟨?_, ?_, ?_, ?_⟩
          · intro i hi j hj
            exact (buildSupplyCon_ok_elim (hsca i hi)).1 j hj
          · intro i hi
            exact (buildSupplyCon_ok_elim (hsca i hi)).2.1
          · intro k hk j hj
            exact (buildTransCon_ok_elim (htca k hk)).2.1 j hj
          · intro j hj
            exact (buildDemandCon_ok_elim (hdca j hj)).2.1
        · rw [hok.symm, hscm, hdcm, htcm, explicitLP]
          simp [List.append_assoc]

/-! ## The assembled LP is the spec's transshipment problem -/

theorem evalTerms_map_coeff (g : Arc → ℚ) (q : ℚ) (h : Node → Arc)
    (l : List Node) :
    evalTerms g (l.map (fun x => (q, h x))) = q * (l.map (fun x => g (h x))).sum := by
  induction l with
  | nil => simp [evalTerms]
  | cons a l ih =>
    simp [evalTerms, List.map_cons, List.sum_cons, mul_add] at ih ⊢
    rw [ih]

theorem evalTerms_append (g : Arc → ℚ) (a b : List (ℚ × Arc)) :
    evalTerms g (a ++ b) = evalTerms g a + evalTerms g b := by
  simp [evalTerms]

theorem satC_mkSupplyCon (g : Arc → ℚ) (ts : List Node)
    (supply : List (Node × ℚ)) (i : Node) :
    satC g (mkSupplyCon ts supply i) ↔
      flowOut g i ts ≤ (dfind? supply i).getD 0 := by
  simp [satC, mkSupplyCon, evalTerms_map_coeff, flowOut]

theorem satC_mkDemandCon (g : Arc → ℚ) (ts : List Node)
    (demand : List (Node × ℚ)) (j : Node) :
    satC g (mkDemandCon ts demand j) ↔
      (dfind? demand j).getD 0 ≤ flowIn g ts j := by
  simp [satC, mkDemandCon, evalTerms_map_coeff, flowIn]

theorem satC_mkTransCon (g : Arc → ℚ) (ss ds : List Node) (k : Node) :
    satC g (mkTransCon ss ds k) ↔ flowIn g ss k = flowOut g k ds := by
  simp only [satC, mkTransCon, evalTerms_append, evalTerms_map_coeff]
  rw [one_mul, neg_one_mul]
  constructor
  · intro h
    have := add_neg_eq_zero.1 h
    simpa [flowIn, flowOut] using this
  · intro h
    apply add_neg_eq_zero.2
    simpa [flowIn, flowOut] using h

theorem Feasible_explicitLP_iff (nodes : Nodes) (supply demand : List (Node × ℚ))
    (cost : List (Arc × ℚ)) (g : Arc → ℚ) :
    Feasible (explicitLP nodes supply demand cost) g ↔
      specFeasible nodes supply demand cost g := by
  unfold Feasible specFeasible explicitLP
  simp only []
  constructor
  · rintro ⟨h0, hc⟩
    refine ⟨h0, ?_, ?_, ?_⟩
    · intro i hi
      refine (satC_mkSupplyCon g nodes.transshipments supply i).1 (hc _ ?_)
      exact List.mem_append_left _ (List.mem_append_left _
        (List.mem_map_of_mem _ hi))
    · intro j hj
      refine (satC_mkDemandCon g nodes.transshipments demand j).1 (hc _ ?_)
      exact List.mem_append_left _ (List.mem_append_right _
        (List.mem_map_of_mem _ hj))
    · intro k hk
      refine (satC_mkTransCon g nodes.sources nodes.destinations k).1 (hc _ ?_)
      exact List.mem_append_right _ (List.mem_map_of_mem _ hk)
  · rintro ⟨h0, hs, hd, ht⟩
    refine ⟨h0, ?_⟩
    intro con hcon
    rcases List.mem_append.1 hcon with hsd | htr
    · rcases List.mem_append.1 hsd with hsup | hdem
      · rcases List.mem_map.1 hsup with ⟨i, hi, rfl⟩
        exact (satC_mkSupplyCon g nodes.transshipments supply i).2 (hs i hi)
      · rcases List.mem_map.1 hdem with ⟨j, hj, rfl⟩
        exact (satC_mkDemandCon g nodes.transshipments demand j).2 (hd j hj)
    · rcases List.mem_map.1 htr with ⟨k, hk, rfl⟩
      exact (satC_mkTransCon g nodes.sources nodes.destinations k).2 (ht k hk)

theorem objectiveVal_explicitLP (nodes : Nodes) (supply demand : List (Node × ℚ))
    (cost : List (Arc × ℚ)) (g : Arc → ℚ) :
    objectiveVal (explicitLP nodes supply demand cost) g = specObjective cost g := by
  simp only [objectiveVal, explicitLP, evalTerms, specObjective, List.map_map]
  rfl

/-! ## Unfolding the top-level function -/

theorem solve_eq_of_build_ok {nodes : Nodes} {supply demand : List (Node × ℚ)}
    {cost : List (Arc × ℚ)} {lp : LP} (solver : Solver) (b1 b2 : Bool)
    (hbuild : buildProblem nodes supply demand cost = .ok lp) :
    solve_transshipment_problem solver nodes supply demand cost b1 b2 =
      .ok (lp.vars.map (fun v => (varName v, (solver lp).assignment v)),
           objectiveVal lp (solver lp).assignment) := by
  unfold solve_transshipment_problem
  rw [hbuild]

theorem solve_eq_of_build_error {nodes : Nodes} {supply demand : List (Node × ℚ)}
    {cost : List (Arc × ℚ)} {e : PyErr} (solver : Solver) (b1 b2 : Bool)
    (hbuild : buildProblem nodes supply demand cost = .error e) :
    solve_transshipment_problem solver nodes supply demand cost b1 b2 =
      .error e := by
  unfold solve_transshipment_problem
  rw [hbuild]

/-! ## Concrete instances used by the witnesses -/

/-- One source, one transshipment node, one destination. -/
def nodesA : Nodes := ⟨["F1"], ["X1"], ["D1"]⟩

def supplyA : List (Node × ℚ) := [("F1", 10)]

def demandA : List (Node × ℚ) := [("D1", 5)]

def costA : List (Arc × ℚ) := [(("F1", "X1"), 2), (("X1", "D1"), 3)]

/-- The LP the code assembles from the instance above. -/
def lpA : LP := explicitLP nodesA supplyA demandA costA

/-- A solver oracle answering the (unique) optimal solution of `lpA`:
ship 5 units along each arc, for a total cost of `2*5 + 3*5 = 25`. -/
def solverA : Solver := fun _ => ⟨1, fun _ => 5⟩

theorem lpA_feasible : Feasible lpA ((solverA lpA).assignment) := by
  norm_num [Feasible, lpA, explicitLP, nodesA, supplyA, demandA, costA, keys,
    mkSupplyCon, mkDemandCon, mkTransCon, satC, evalTerms, dfind?, solverA]

theorem lpA_optimal : Optimal lpA (solverA lpA).assignment := by
  constructor
  · exact lpA_feasible
  · intro g hg
    obtain ⟨h0, hs, hd, ht⟩ :=
      (Feasible_explicitLP_iff nodesA supplyA demandA costA g).1
        (by simpa [lpA] using hg)
    have h1 := hd "D1" (by simp [nodesA])
    have h2 := ht "X1" (by simp [nodesA])
    simp [demandA, nodesA, dfind?, flowIn, flowOut] at h1 h2
    have hgoal : objectiveVal lpA (solverA lpA).assignment =
        specObjective costA (solverA lpA).assignment := by
      simp [lpA, objectiveVal_explicitLP]
    rw [hgoal]
    have hgoal' : objectiveVal lpA g = specObjective costA g := by
      simp [lpA, objectiveVal_explicitLP]
    rw [hgoal']
    simp [specObjective, costA, solverA]
    linarith

/-! ## C1 -/

/-- C1: for every well-formed input — the required dictionary entries are
present, so the model builds as `.ok lp` — on which the LP solver returns an
optimal solution of the assembled LP, `solve_transshipment_problem` returns
the results table recording that solution and a `total_cost` equal to the
minimum of `∑ cost[i,j] * flow[i,j]` over all nonnegative flow assignments
satisfying the supply limits, demand requirements and flow conservation at
transshipment nodes; the recorded flow values attain that minimum. -/
theorem solve_returns_minimum_cost (nodes : Nodes)
    (supply demand : List (Node × ℚ)) (cost : List (Arc × ℚ))
    (solver : Solver) (b1 b2 : Bool) (lp : LP)
    (hbuild : buildProblem nodes supply demand cost = .ok lp)
    (hopt : Optimal lp (solver lp).assignment) :
    solve_transshipment_problem solver nodes supply demand cost b1 b2 =
      .ok ((keys cost).map (fun v => (varName v, (solver lp).assignment v)),
        specObjective cost ((solver lp).assignment)) ∧
    specFeasible nodes supply demand cost ((solver lp).assignment) ∧
    ∀ g, specFeasible nodes supply demand cost g →
      specObjective cost ((solver lp).assignment) ≤ specObjective cost g := by
  obtain ⟨hreq, hlp⟩ := buildProblem_ok_elim hbuild
  subst hlp
  refine ⟨?_, ?_, ?_⟩
  · rw [solve_eq_of_build_ok solver b1 b2 hbuild, objectiveVal_explicitLP]
    rfl
  · exact (Feasible_explicitLP_iff nodes supply demand cost _).1 hopt.1
  · intro g hg
    have h := hopt.2 g ((Feasible_explicitLP_iff nodes supply demand cost g).2 hg)
    rwa [objectiveVal_explicitLP, objectiveVal_explicitLP] at h

theorem solve_returns_minimum_cost_witness :
    (buildProblem nodesA supplyA demandA costA = .ok lpA) ∧
    Optimal lpA (solverA lpA).assignment ∧
    (solve_transshipment_problem solverA nodesA supplyA demandA costA false false =
      .ok ((keys costA).map (fun v => (varName v, (solverA lpA).assignment v)),
        specObjective costA ((solverA lpA).assignment)) ∧
    specFeasible nodesA supplyA demandA costA ((solverA lpA).assignment) ∧
    ∀ g, specFeasible nodesA supplyA demandA costA g →
      specObjective costA ((solverA lpA).assignment) ≤ specObjective costA g) :=
  ⟨buildProblem_ok_of (by decide), lpA_optimal,
   solve_returns_minimum_cost nodesA supplyA demandA costA solverA false false
     lpA (buildProblem_ok_of (by decide)) lpA_optimal⟩

/-! ## C2 -/

/-- C2: in the flow assignment returned by `solve_transshipment_problem`
(whenever the solver's answer is feasible for the assembled LP), every source
node `i` sends at most `supply[i]` in total to the transshipment nodes. -/
theorem supply_limits_hold (nodes : Nodes)
    (supply demand : List (Node × ℚ)) (cost : List (Arc × ℚ))
    (solver : Solver) (b1 b2 : Bool) (lp : LP)
    (hbuild : buildProblem nodes supply demand cost = .ok lp)
    (hfeas : Feasible lp ((solver lp).assignment)) :
    solve_transshipment_problem solver nodes supply demand cost b1 b2 =
      .ok (lp.vars.map (fun v => (varName v, (solver lp).assignment v)),
        objectiveVal lp ((solver lp).assignment)) ∧
    ∀ i ∈ nodes.sources,
      flowOut ((solver lp).assignment) i nodes.transshipments ≤
        (dfind? supply i).getD 0 := by
  obtain ⟨hreq, hlp⟩ := buildProblem_ok_elim hbuild
  subst hlp
  refine ⟨solve_eq_of_build_ok solver b1 b2 hbuild, ?_⟩
  exact ((Feasible_explicitLP_iff nodes supply demand cost _).1 hfeas).2.1

theorem supply_limits_hold_witness :
    (buildProblem nodesA supplyA demandA costA = .ok lpA) ∧
    Feasible lpA ((solverA lpA).assignment) ∧
    (solve_transshipment_problem solverA nodesA supplyA demandA costA false false =
      .ok (lpA.vars.map (fun v => (varName v, (solverA lpA).assignment v)),
        objectiveVal lpA ((solverA lpA).assignment)) ∧
    ∀ i ∈ nodesA.sources,
      flowOut ((solverA lpA).assignment) i nodesA.transshipments ≤
        (dfind? supplyA i).getD 0) :=
  ⟨buildProblem_ok_of (by decide), lpA_feasible,
   supply_limits_hold nodesA supplyA demandA costA solverA false false lpA
     (buildProblem_ok_of (by decide)) lpA_feasible⟩

/-! ## C3 -/

/-- C3: in the flow assignment returned by `solve_transshipment_problem`
(whenever the solver's answer is feasible for the assembled LP), every
destination node `j` receives at least `demand[j]` in total from the
transshipment nodes. -/
theorem demand_requirements_hold (nodes : Nodes)
    (supply demand : List (Node × ℚ)) (cost : List (Arc × ℚ))
    (solver : Solver) (b1 b2 : Bool) (lp : LP)
    (hbuild : buildProblem nodes supply demand cost = .ok lp)
    (hfeas : Feasible lp ((solver lp).assignment)) :
    solve_transshipment_problem solver nodes supply demand cost b1 b2 =
      .ok (lp.vars.map (fun v => (varName v, (solver lp).assignment v)),
        objectiveVal lp ((solver lp).assignment)) ∧
    ∀ j ∈ nodes.destinations,
      (dfind? demand j).getD 0 ≤
        flowIn ((solver lp).assignment) nodes.transshipments j := by
  obtain ⟨hreq, hlp⟩ := buildProblem_ok_elim hbuild
  subst hlp
  refine ⟨solve_eq_of_build_ok solver b1 b2 hbuild, ?_⟩
  exact ((Feasible_explicitLP_iff nodes supply demand cost _).1 hfeas).2.2.1

theorem demand_requirements_hold_witness :
    (buildProblem nodesA supplyA demandA costA = .ok lpA) ∧
    Feasible lpA ((solverA lpA).assignment) ∧
    (solve_transshipment_problem solverA nodesA supplyA demandA costA false false =
      .ok (lpA.vars.map (fun v => (varName v, (solverA lpA).assignment v)),
        objectiveVal lpA ((solverA lpA).assignment)) ∧
    ∀ j ∈ nodesA.destinations,
      (dfind? demandA j).getD 0 ≤
        flowIn ((solverA lpA).assignment) nodesA.transshipments j) :=
  ⟨buildProblem_ok_of (by decide), lpA_feasible,
   demand_requirements_hold nodesA supplyA demandA costA solverA false false lpA
     (buildProblem_ok_of (by decide)) lpA_feasible⟩

/-! ## C4 -/

/-- C4: in the flow assignment returned by `solve_transshipment_problem`
(whenever the solver's answer is feasible for the assembled LP), flow is
conserved at every transshipment node `k`: the total flow into `k` from the
source nodes equals the total flow out of `k` to the destination nodes. -/
theorem flow_conservation_holds (nodes : Nodes)
    (supply demand : List (Node × ℚ)) (cost : List (Arc × ℚ))
    (solver : Solver) (b1 b2 : Bool) (lp : LP)
    (hbuild : buildProblem nodes supply demand cost = .ok lp)
    (hfeas : Feasible lp ((solver lp).assignment)) :
    solve_transshipment_problem solver nodes supply demand cost b1 b2 =
      .ok (lp.vars.map (fun v => (varName v, (solver lp).assignment v)),
        objectiveVal lp ((solver lp).assignment)) ∧
    ∀ k ∈ nodes.transshipments,
      flowIn ((solver lp).assignment) nodes.sources k =
        flowOut ((solver lp).assignment) k nodes.destinations := by
  obtain ⟨hreq, hlp⟩ := buildProblem_ok_elim hbuild
  subst hlp
  refine ⟨solve_eq_of_build_ok solver b1 b2 hbuild, ?_⟩
  exact ((Feasible_explicitLP_iff nodes supply demand cost _).1 hfeas).2.2.2

theorem flow_conservation_holds_witness :
    (buildProblem nodesA supplyA demandA costA = .ok lpA) ∧
    Feasible lpA ((solverA lpA).assignment) ∧
    (solve_transshipment_problem solverA nodesA supplyA demandA costA false false =
      .ok (lpA.vars.map (fun v => (varName v, (solverA lpA).assignment v)),
        objectiveVal lpA ((solverA lpA).assignment)) ∧
    ∀ k ∈ nodesA.transshipments,
      flowIn ((solverA lpA).assignment) nodesA.sources k =
        flowOut ((solverA lpA).assignment) k nodesA.destinations) :=
  ⟨buildProblem_ok_of (by decide), lpA_feasible,
   flow_conservation_holds nodesA supplyA demandA costA solverA false false lpA
     (buildProblem_ok_of (by decide)) lpA_feasible⟩

/-! ## C5 -/

/-- C5: the linear program only ever constrains the fixed three-tier
topology: every term of every constraint row lies on a source→transshipment
arc or a transshipment→destination arc, and a `cost` key of any other shape
still creates a nonnegative decision variable with a term in the objective
but occurs in no constraint. -/
theorem three_tier_topology_only (nodes : Nodes)
    (supply demand : List (Node × ℚ)) (cost : List (Arc × ℚ)) (lp : LP)
    (hbuild : buildProblem nodes supply demand cost = .ok lp) :
    (∀ con ∈ lp.constraints, ∀ t ∈ con.terms,
      (t.2.1 ∈ nodes.sources ∧ t.2.2 ∈ nodes.transshipments) ∨
      (t.2.1 ∈ nodes.transshipments ∧ t.2.2 ∈ nodes.destinations)) ∧
    (∀ p v, (p, v) ∈ cost →
      p ∈ lp.vars ∧ (v, p) ∈ lp.objective ∧
      (∀ g, Feasible lp g → 0 ≤ g p) ∧
      (¬(p.1 ∈ nodes.sources ∧ p.2 ∈ nodes.transshipments) →
       ¬(p.1 ∈ nodes.transshipments ∧ p.2 ∈ nodes.destinations) →
       ∀ con ∈ lp.constraints, ∀ t ∈ con.terms, t.2 ≠ p)) := by
  obtain ⟨hreq, hlp⟩ := buildProblem_ok_elim hbuild
  subst hlp
  have hshape : ∀ con ∈ (explicitLP nodes supply demand cost).constraints,
      ∀ t ∈ con.terms,
      (t.2.1 ∈ nodes.sources ∧ t.2.2 ∈ nodes.transshipments) ∨
      (t.2.1 ∈ nodes.transshipments ∧ t.2.2 ∈ nodes.destinations) := by
    intro con hcon t ht
    simp only [explicitLP] at hcon
    rcases List.mem_append.1 hcon with hsd | htr
    · rcases List.mem_append.1 hsd with hsup | hdem
      · rcases List.mem_map.1 hsup with ⟨i, hi, rfl⟩
        simp only [mkSupplyCon] at ht
        rcases List.mem_map.1 ht with ⟨j, hj, rfl⟩
        exact Or.inl ⟨hi, hj⟩
      · rcases List.mem_map.1 hdem with ⟨j, hj, rfl⟩
        simp only [mkDemandCon] at ht
        rcases List.mem_map.1 ht with ⟨i, hi, rfl⟩
        exact Or.inr ⟨hi, hj⟩
    · rcases List.mem_map.1 htr with ⟨k, hk, rfl⟩
      simp only [mkTransCon] at ht
      rcases List.mem_append.1 ht with hin | hout
      · rcases List.mem_map.1 hin with ⟨i, hi, rfl⟩
        exact Or.inl ⟨hi, hk⟩
      · rcases List.mem_map.1 hout with ⟨j, hj, rfl⟩
        exact Or.inr ⟨hk, hj⟩
  refine ⟨hshape, ?_⟩
  intro p v hpv
  have hvar : p ∈ (explicitLP nodes supply demand cost).vars := by
    simp only [explicitLP, keys]
    exact List.mem_map.2 ⟨(p, v), hpv, rfl⟩
  refine ⟨hvar, ?_, ?_, ?_⟩
  · simp only [explicitLP]
    exact List.mem_map.2 ⟨(p, v), hpv, rfl⟩
  · intro g hg
    exact hg.1 p hvar
  · intro hn1 hn2 con hcon t ht heq
    rcases hshape con hcon t ht with hst | htd
    · rw [heq] at hst; exact hn1 hst
    · rw [heq] at htd; exact hn2 htd

/-- An instance with an extra direct source→destination arc in `cost`. -/
def cost5 : List (Arc × ℚ) :=
  [(("F1", "X1"), 2), (("X1", "D1"), 3), (("F1", "D1"), 9)]

def lp5 : LP := explicitLP nodesA supplyA demandA cost5

theorem three_tier_topology_only_witness :
    (buildProblem nodesA supplyA demandA cost5 = .ok lp5) ∧
    ((("F1", "D1") : Arc), (9 : ℚ)) ∈ cost5 ∧
    ((("F1", "D1") : Arc) ∈ lp5.vars ∧
     ((9 : ℚ), (("F1", "D1") : Arc)) ∈ lp5.objective ∧
     (∀ g, Feasible lp5 g → 0 ≤ g ("F1", "D1")) ∧
     (∀ con ∈ lp5.constraints, ∀ t ∈ con.terms, t.2 ≠ (("F1", "D1") : Arc))) := by
  have hb : buildProblem nodesA supplyA demandA cost5 = .ok lp5 :=
    buildProblem_ok_of (by decide)
  have h := (three_tier_topology_only nodesA supplyA demandA cost5 lp5 hb).2
    ("F1", "D1") 9 (by decide)
  exact ⟨hb, by decide, h.1, h.2.1, h.2.2.1, h.2.2.2 (by decide) (by decide)⟩

/-! ## C6 -/

/-- A solver oracle that always answers the zero assignment. -/
def zeroSolver : Solver := fun _ => ⟨1, fun _ => 0⟩

/-- Counterexample to C6 as stated: on an input whose `cost` dictionary lacks
the transshipment→destination arc, `solve_transshipment_problem` raises
`KeyError` instead of returning a `(results_df, total_cost)` pair, so
"for every input ... still returns a pair" is false. -/
def cost6bad : List (Arc × ℚ) := [(("F1", "X1"), 2)]

theorem missing_key_gives_error_not_pair :
    solve_transshipment_problem zeroSolver nodesA supplyA demandA cost6bad
      false false = .error (PyErr.keyArc ("X1", "D1")) ∧
    (solve_transshipment_problem zeroSolver nodesA supplyA demandA cost6bad
      false false).isOk = false := ⟨rfl, rfl⟩

/-- C6 (amended): `solve_transshipment_problem` never inspects the solver's
status.  For every input whose required dictionary entries are present —
including inputs whose constraints are infeasible, such as total supply
strictly below total demand — it still returns a `(results_df, total_cost)`
pair, and the returned value depends only on the solver's variable
assignment, never on its status. -/
theorem returns_pair_when_keys_present (nodes : Nodes)
    (supply demand : List (Node × ℚ)) (cost : List (Arc × ℚ))
    (solver : Solver) (b1 b2 : Bool)
    (hreq : RequiredKeys nodes supply demand cost) :
    (solve_transshipment_problem solver nodes supply demand cost b1 b2).isOk = true ∧
    ∀ solver' : Solver,
      (∀ lp, (solver' lp).assignment = (solver lp).assignment) →
      solve_transshipment_problem solver' nodes supply demand cost b1 b2 =
        solve_transshipment_problem solver nodes supply demand cost b1 b2 := by
  have hb := buildProblem_ok_of hreq
  constructor
  · rw [solve_eq_of_build_ok solver b1 b2 hb]
    rfl
  · intro solver' hsame
    rw [solve_eq_of_build_ok solver b1 b2 hb,
      solve_eq_of_build_ok solver' b1 b2 hb, hsame]

/-- An infeasible instance: supply 1, demand 5. -/
def supply6 : List (Node × ℚ) := [("F1", 1)]

theorem returns_pair_when_keys_present_witness :
    RequiredKeys nodesA supply6 demandA costA ∧
    (solve_transshipment_problem zeroSolver nodesA supply6 demandA costA
      false false).isOk = true ∧
    (∀ g, ¬ specFeasible nodesA supply6 demandA costA g) := by
  refine ⟨by decide,
    (returns_pair_when_keys_present nodesA supply6 demandA costA zeroSolver
      false false (by decide)).1, ?_⟩
  intro g hg
  obtain ⟨h0, hs, hd, ht⟩ := hg
  have h1 := hs "F1" (by simp [nodesA])
  have h2 := hd "D1" (by simp [nodesA])
  have h3 := ht "X1" (by simp [nodesA])
  simp [supply6, demandA, nodesA, dfind?, flowIn, flowOut] at h1 h2 h3
  linarith

/-! ## C7 -/

/-- C7: the function requires a cost key for every source–transshipment pair
and every transshipment–destination pair, a supply entry for every source,
and a demand entry for every destination; if any such entry is missing it
raises `KeyError` during constraint construction — the same error for every
solver, i.e. before any solve is attempted — and if they are all present the
model builds without error. -/
theorem missing_entries_raise_key_error (nodes : Nodes)
    (supply demand : List (Node × ℚ)) (cost : List (Arc × ℚ)) :
    (¬ RequiredKeys nodes supply demand cost →
      ∃ e, buildProblem nodes supply demand cost = .error e ∧
        ∀ (solver : Solver) (b1 b2 : Bool),
          solve_transshipment_problem solver nodes supply demand cost b1 b2 =
            .error e) ∧
    (RequiredKeys nodes supply demand cost →
      buildProblem nodes supply demand cost =
        .ok (explicitLP nodes supply demand cost)) := by
  constructor
  · intro hnreq
    cases hb : buildProblem nodes supply demand cost with
    | ok lp => exact absurd (buildProblem_ok_elim hb).1 hnreq
    | error e =>
      exact ⟨e, rfl, fun solver b1 b2 => solve_eq_of_build_error solver b1 b2 hb⟩
  · exact buildProblem_ok_of

/-- An input whose `demand` dictionary is empty, so `demand["D1"]` is
missing. -/
def demand7 : List (Node × ℚ) := []

theorem missing_entries_raise_key_error_witness :
    (¬ RequiredKeys nodesA supplyA demand7 costA) ∧
    (∃ e, buildProblem nodesA supplyA demand7 costA = .error e ∧
      ∀ (solver : Solver) (b1 b2 : Bool),
        solve_transshipment_problem solver nodesA supplyA demand7 costA b1 b2 =
          .error e) ∧
    RequiredKeys nodesA supplyA demandA costA ∧
    buildProblem nodesA supplyA demandA costA =
      .ok (explicitLP nodesA supplyA demandA costA) :=
  ⟨by decide,
   (missing_entries_raise_key_error nodesA supplyA demand7 costA).1 (by decide),
   by decide,
   (missing_entries_raise_key_error nodesA supplyA demandA costA).2 (by decide)⟩

/-! ## C8 -/

/-- C8: no well-formedness check is performed.  A `cost` key whose endpoints
belong to no role list is accepted without any validation error: the model
still builds, a decision variable is created for the key, and its term is
included in the objective. -/
theorem no_role_validation (nodes : Nodes)
    (supply demand : List (Node × ℚ)) (cost : List (Arc × ℚ))
    (p : Arc) (v : ℚ)
    (hreq : RequiredKeys nodes supply demand cost) (hpv : (p, v) ∈ cost)
    (hleft : p.1 ∉ nodes.sources ∧ p.1 ∉ nodes.transshipments ∧
      p.1 ∉ nodes.destinations)
    (hright : p.2 ∉ nodes.sources ∧ p.2 ∉ nodes.transshipments ∧
      p.2 ∉ nodes.destinations) :
    buildProblem nodes supply demand cost =
      .ok (explicitLP nodes supply demand cost) ∧
    p ∈ (explicitLP nodes supply demand cost).vars ∧
    (v, p) ∈ (explicitLP nodes supply demand cost).objective := by
  refine ⟨buildProblem_ok_of hreq, ?_, ?_⟩
  · simp only [explicitLP, keys]
    exact List.mem_map.2 ⟨(p, v), hpv, rfl⟩
  · simp only [explicitLP]
    exact List.mem_map.2 ⟨(p, v), hpv, rfl⟩

/-- An instance whose `cost` has a key `("Z", "W")` with both endpoints in no
role list. -/
def cost8 : List (Arc × ℚ) :=
  [(("F1", "X1"), 2), (("X1", "D1"), 3), (("Z", "W"), 7)]

theorem no_role_validation_witness :
    RequiredKeys nodesA supplyA demandA cost8 ∧
    ((("Z", "W") : Arc), (7 : ℚ)) ∈ cost8 ∧
    (buildProblem nodesA supplyA demandA cost8 =
      .ok (explicitLP nodesA supplyA demandA cost8) ∧
     (("Z", "W") : Arc) ∈ (explicitLP nodesA supplyA demandA cost8).vars ∧
     ((7 : ℚ), (("Z", "W") : Arc)) ∈
       (explicitLP nodesA supplyA demandA cost8).objective) :=
  ⟨by decide, by decide,
   no_role_validation nodesA supplyA demandA cost8 ("Z", "W") 7 (by decide)
     (by decide) (by decide) (by decide)⟩

/-! ## C9 -/

/-- A second solver oracle, used to show an error arises independently of the
solver. -/
def otherSolver : Solver := fun _ => ⟨-1, fun _ => 42⟩

/-- Counterexample to C9 as stated: on an input whose `supply` dictionary is
empty, the function itself raises `KeyError` while building the supply
constraint — an error produced by the function's own dictionary lookup, not
by the solver (the modelled solver is total and is never reached: the same
error results for two different oracles) nor by plotting (both flags are
false).  So "the only errors ... are those raised by the underlying solver
and plotting libraries" is false. -/
def supply9 : List (Node × ℚ) := []

theorem own_key_error_not_from_solver :
    solve_transshipment_problem zeroSolver nodesA supply9 demandA costA
      false false = .error (PyErr.keyNode "F1") ∧
    solve_transshipment_problem otherSolver nodesA supply9 demandA costA
      false false = .error (PyErr.keyNode "F1") := ⟨rfl, rfl⟩

/-- C9 (amended): `solve_transshipment_problem` catches no exceptions: every
error it can raise is a `KeyError` from its own dictionary lookups during
constraint construction (the external solver and plot libraries are modelled
as total), and such errors propagate unchanged to the caller. -/
theorem errors_propagate_unchanged (nodes : Nodes)
    (supply demand : List (Node × ℚ)) (cost : List (Arc × ℚ))
    (solver : Solver) (b1 b2 : Bool) (e : PyErr) :
    solve_transshipment_problem solver nodes supply demand cost b1 b2 =
        .error e ↔
      buildProblem nodes supply demand cost = .error e := by
  cases hb : buildProblem nodes supply demand cost with
  | error e' =>
    rw [solve_eq_of_build_error solver b1 b2 hb]
    simp
  | ok lp =>
    rw [solve_eq_of_build_ok solver b1 b2 hb]
    simp

/-! ## C10 -/

/-- C10: the returned `(results_df, total_cost)` pair is identical across all
four combinations of `plot_network` and `plot_bar_chart`; the plotting
routines are presentation-only and have no effect on the computed
solution. -/
theorem plot_flags_do_not_affect_result (solver : Solver) (nodes : Nodes)
    (supply demand : List (Node × ℚ)) (cost : List (Arc × ℚ))
    (b1 b2 b1' b2' : Bool) :
    solve_transshipment_problem solver nodes supply demand cost b1 b2 =
      solve_transshipment_problem solver nodes supply demand cost b1' b2' := by
  cases hb : buildProblem nodes supply demand cost with
  | error e =>
    rw [solve_eq_of_build_error solver b1 b2 hb,
      solve_eq_of_build_error solver b1' b2' hb]
  | ok lp =>
    rw [solve_eq_of_build_ok solver b1 b2 hb,
      solve_eq_of_build_ok solver b1' b2' hb]

end Transshipment
